import Mathlib

/-!
Verification of the essay_search_engine repository: a shallow embedding of
the keyword search engine (src/search.js), the page-level pagination logic
(src/main.js), the service-worker update check (src/service-worker.js), and
the documented dense-vector scoring pipeline (README.md / CLAUDE.md
excerpts of the removed dense-variant search.js).
-/

namespace Essay

/-- Chunk record as consumed by SearchEngine: the fields read by search.js
and main.js. The tags field is a comma-separated string that may be absent
(chunk.tags is optional in the JS, guarded by the optional-chaining
operator). -/
structure Chunk where
  chunk_id : Nat
  book_title : String
  chapter_title : String
  tags : Option String
  content : String
deriving Repr, DecidableEq

/-- Metadata manifest: data/metadata.json as read by SearchEngine.initialize. -/
structure Metadata where
  chunks : List Chunk
  total_chunks : Nat
deriving Repr, DecidableEq

/-- Mutable fields of the SearchEngine class (search.js constructor):
this.fuse, this.metadata, this.isLoading, this.isReady. The fuse index is
tracked as a Boolean because search builds its own local index and never
reads this.fuse. -/
structure EngineState where
  metadata : Option Metadata
  fuseBuilt : Bool
  isLoading : Bool
  isReady : Bool
deriving Repr, DecidableEq

/-- Search result shape produced by SearchEngine.search: a chunk plus a
score (1.0 for the tag-only branch, 1 - fuseScore for the query branch). -/
structure SearchResult where
  chunk : Chunk
  score : ℚ
deriving Repr, DecidableEq

/-- Embedding of the JS string method split with separator comma: the
accumulator holds the current field in reverse. -/
def splitCommaAux : List Char → List Char → List String
  | [], acc => [String.mk acc.reverse]
  | c :: cs, acc =>
    if c = ',' then String.mk acc.reverse :: splitCommaAux cs []
    else splitCommaAux cs (c :: acc)

/-- JS split on a comma: the empty string yields one empty field, and a
separator at either end yields an empty field there. -/
def jsSplitComma (s : String) : List String := splitCommaAux s.data []

/-- Whitespace characters removed by the JS string method trim, restricted
to the ASCII whitespace occurring in the dataset. -/
def jsWhitespace (c : Char) : Bool :=
  c = ' ' || c = '\t' || c = '\n' || c = '\r'

/-- Embedding of the JS string method trim: drop leading and trailing
whitespace. -/
def jsTrim (s : String) : String :=
  String.mk (((s.data.dropWhile jsWhitespace).reverse.dropWhile jsWhitespace).reverse)

/-- Embedding of the JS string method toLowerCase on one character,
restricted to ASCII letters. -/
def jsToLowerChar (c : Char) : Char :=
  if 'A' ≤ c ∧ c ≤ 'Z' then Char.ofNat (c.toNat + 32) else c

/-- Embedding of the JS string method toLowerCase. -/
def jsToLower (s : String) : String := String.mk (s.data.map jsToLowerChar)

/-- Tag list of a chunk as computed inside the search tag filter
(search.js line 80): chunk.tags split on commas, each part trimmed; the
empty list when the tags field is absent. -/
def chunkTags (c : Chunk) : List String :=
  match c.tags with
  | some s => (jsSplitComma s).map jsTrim
  | none => []

/-- Predicate of the tag filter (search.js line 81): every requested tag
must occur, by exact string comparison, in the chunk tag list. -/
def tagMatches (tags : List String) (c : Chunk) : Bool :=
  tags.all (fun tag => (chunkTags c).contains tag)

/-- Step 1 of search (search.js lines 77 to 83): filter by tags with AND
logic when the tag list is nonempty, otherwise keep all chunks. -/
def tagFilterStep (tags : List String) (chunks : List Chunk) : List Chunk :=
  if 0 < tags.length then chunks.filter (fun c => tagMatches tags c) else chunks

/-- Step 2 of search (search.js lines 85 to 113): when the query is a
nonempty string whose trimmed form is nonempty, run the Fuse.js index built
over the filtered chunks and invert each score; otherwise map every
filtered chunk to score 1.0. The Fuse.js library call is a parameter. -/
def scoredResults (fuse : String → List Chunk → List (Chunk × ℚ))
    (query : String) (tags : List String) (chunks : List Chunk) :
    List SearchResult :=
  let filtered := tagFilterStep tags chunks
  if query ≠ "" ∧ 0 < (jsTrim query).length then
    (fuse (jsTrim query) filtered).map (fun r => ⟨r.1, 1 - r.2⟩)
  else
    filtered.map (fun c => ⟨c, 1⟩)

/-- Final line of search (search.js line 115): limit is applied by
results.slice(0, limit) when limit is truthy (a limit of 0 is falsy in JS
and means no limit, as does the default null). -/
def applyLimit (limit : Option Nat) (rs : List SearchResult) : List SearchResult :=
  match limit with
  | some n => if n ≠ 0 then rs.take n else rs
  | none => rs

/-- Error message thrown by the readiness guard (search.js lines 68 to 72). -/
def notReadyMsg : String := "Search engine not initialized. Call initialize() first."

/-- SearchEngine.search (search.js lines 67 to 116), with the engine state
threaded explicitly: the method throws when the engine is not ready, then
filters by tags, then scores (via Fuse.js when a query is present), then
slices to the limit. It assigns to no field of this, so the returned state
is the input state. Reading this.metadata.chunks on a null metadata would
raise a TypeError, modelled as an error value. -/
def search (fuse : String → List Chunk → List (Chunk × ℚ))
    (s : EngineState) (query : String) (tags : List String)
    (limit : Option Nat) :
    Except String (List SearchResult × EngineState) :=
  if s.isReady = false then
    .error notReadyMsg
  else
    match s.metadata with
    | none => .error "TypeError: cannot read chunks of null"
    | some md =>
      .ok (applyLimit limit (scoredResults fuse query tags md.chunks), s)

/-- SearchEngine.initialize (search.js lines 19 to 58), with the combined
fetch of metadata.json and its JSON parse abstracted as an Except argument:
returns at once when already ready, throws when a load is in flight,
otherwise stores the metadata, builds the Fuse index and flips the flags;
on a fetch failure it rethrows with a wrapped message and the finally block
resets isLoading. -/
def initializeEngine (fetchResult : Except String Metadata) (s : EngineState) :
    EngineState × Except String Unit :=
  if s.isReady then
    (s, .ok ())
  else if s.isLoading then
    (s, .error "Already initializing")
  else
    match fetchResult with
    | .ok md =>
        ({ s with metadata := some md, fuseBuilt := true,
                  isLoading := false, isReady := true }, .ok ())
    | .error e =>
        ({ s with isLoading := false },
         .error ("Failed to initialize search engine: " ++ e))

/-- Fixed page size of the results view (main.js line 146). -/
def resultsPerPage : Nat := 25

/-- Page count computed by renderResults (main.js line 241):
Math.ceil(allResults.length / resultsPerPage), written as the equivalent
natural-number ceiling division. -/
def totalPages (n : Nat) : Nat := (n + resultsPerPage - 1) / resultsPerPage

/-- Start index of a page (main.js line 242): (currentPage - 1) * resultsPerPage. -/
def startIdx (page : Nat) : Nat := (page - 1) * resultsPerPage

/-- End index of a page (main.js line 243): min(startIdx + resultsPerPage, length). -/
def endIdx (n page : Nat) : Nat := min (startIdx page + resultsPerPage) n

/-- Slice rendered for a page (main.js line 244):
allResults.slice(startIdx, endIdx). -/
def pageSlice (rs : List SearchResult) (page : Nat) : List SearchResult :=
  (rs.take (endIdx rs.length page)).drop (startIdx page)

/-- Next-page click handler (main.js lines 298 to 304): the page advances
only while currentPage < totalPages; the button is also rendered disabled
at the last page. -/
def nextPageClick (current total : Nat) : Nat :=
  if current < total then current + 1 else current

/-- Previous-page click handler (main.js lines 290 to 296). -/
def prevPageClick (current : Nat) : Nat :=
  if 1 < current then current - 1 else current

/-- Version descriptor data/version.json: a timestamp plus a checksum over
the embeddings asset. -/
structure VersionJson where
  timestamp : Nat
  checksum : String
deriving Repr, DecidableEq

/-- The two cache entries that checkForUpdates may write (service-worker.js
lines 439 to 443): the embeddings asset body and the parsed version
descriptor. -/
structure SWCache where
  embeddings : Option String
  version : Option VersionJson
deriving Repr, DecidableEq

/-- Outcome of a network fetch as observed by the service worker: either
the promise rejects, or a response arrives with an ok flag and a parsed
body. -/
inductive FetchOutcome (α : Type) where
  | thrown (msg : String)
  | response (ok : Bool) (body : α)
deriving Repr, DecidableEq

/-- Messages posted back to the page by checkForUpdates via notify. -/
inductive UpdateMessage where
  | updateCheckFailed (err : String)
  | upToDate (v : VersionJson)
  | updateAvailable (v : VersionJson)
  | updateFailed (err : String)
deriving Repr, DecidableEq

/-- Inner update branch of checkForUpdates (service-worker.js lines 435 to
450): fetch embeddings.json; when the response is ok, put the embeddings
body into the cache and then put the new version descriptor, notifying
UPDATE_AVAILABLE; when the response is not ok, nothing is written and no
message is sent; when the fetch or either cache.put rejects, the inner
catch notifies UPDATE_FAILED. Each cache.put is all-or-nothing, with its
success injected as a Boolean. -/
def downloadNewEmbeddings (newVersion : VersionJson)
    (embFetch : FetchOutcome String) (putEmbOk putVerOk : Bool)
    (c : SWCache) : SWCache × Option UpdateMessage :=
  match embFetch with
  | .thrown msg => (c, some (.updateFailed msg))
  | .response false _ => (c, none)
  | .response true body =>
    if putEmbOk = false then
      (c, some (.updateFailed "cache.put rejected"))
    else
      let c1 : SWCache := { c with embeddings := some body }
      if putVerOk = false then
        (c1, some (.updateFailed "cache.put rejected"))
      else
        ({ c1 with version := some newVersion }, some (.updateAvailable newVersion))

/-- checkForUpdates (service-worker.js lines 407 to 458): fetch the live
version.json (cache-busted); on a rejected fetch or a non-ok response,
notify UPDATE_CHECK_FAILED and write nothing; otherwise compare the new
checksum with the cached descriptor and either notify UP_TO_DATE or run the
background download branch. -/
def checkForUpdates (versionFetch : FetchOutcome VersionJson)
    (embFetch : FetchOutcome String) (putEmbOk putVerOk : Bool)
    (c : SWCache) : SWCache × Option UpdateMessage :=
  match versionFetch with
  | .thrown msg => (c, some (.updateCheckFailed msg))
  | .response false _ => (c, some (.updateCheckFailed "HTTP status not ok"))
  | .response true newVersion =>
    match c.version with
    | none => downloadNewEmbeddings newVersion embFetch putEmbOk putVerOk c
    | some cached =>
      if newVersion.checksum ≠ cached.checksum then
        downloadNewEmbeddings newVersion embFetch putEmbOk putVerOk c
      else
        (c, some (.upToDate cached))

/-- Tags of a chunk as processed by the removed dense-variant search.js,
reproduced in CLAUDE.md section Tag Format:
chunk.tags.toLowerCase().split(",").map(trim).filter(nonempty). -/
def denseTags (c : Chunk) : List String :=
  match c.tags with
  | some s => ((jsSplitComma (jsToLower s)).map jsTrim).filter (fun t => 0 < t.length)
  | none => []

/-- Tag boosting of the dense variant (README.md configuration excerpts):
an exact tag match with the lowercased query adds 0.20 to the score,
otherwise a partial match adds 0.10. The partial-match predicate is not
reproduced in the repository, so it is a parameter. -/
def tagBoost (pMatch : String → String → Bool) (queryLower : String)
    (tags : List String) : ℚ :=
  if tags.contains queryLower then 20/100
  else if tags.any (fun t => pMatch queryLower t) then 10/100
  else 0

/-- Acceptance cutoff of the dense variant (README.md: results =
results.filter(r => r.score >= 0.3)). -/
def scoreThreshold : ℚ := 30/100

/-- Acceptance decision of the dense variant for one chunk: the chunk is
kept exactly when its base cosine similarity plus its tag boost reaches the
single cutoff of 0.3 (README.md Browser Search pipeline steps 5 to 7). -/
def denseAccept (pMatch : String → String → Bool) (queryLower : String)
    (c : Chunk) (base : ℚ) : Bool :=
  scoreThreshold ≤ base + tagBoost pMatch queryLower (denseTags c)

/-- First chunk of the concrete three-chunk manifest from the testable
properties of the design (id 0, title How to Travel, tag travel). -/
def exC0 : Chunk := ⟨0, "How to Travel", "", some "travel", ""⟩

/-- Second chunk of the concrete manifest (id 1, title Intro, tag anxiety). -/
def exC1 : Chunk := ⟨1, "Intro", "", some "anxiety", ""⟩

/-- Third chunk of the concrete manifest (id 2, title Outro, tags anxiety
and calm). -/
def exC2 : Chunk := ⟨2, "Outro", "", some "anxiety,calm", ""⟩

/-- The concrete three-chunk manifest. -/
def exMetadata : Metadata := ⟨[exC0, exC1, exC2], 3⟩

/-- A ready engine state holding the concrete manifest. -/
def exState : EngineState := ⟨some exMetadata, true, false, true⟩

/-- A degenerate Fuse.js call returning no matches; any function whose
output items come from its input list is a valid instantiation. -/
def trivFuse : String → List Chunk → List (Chunk × ℚ) := fun _ _ => []

/-- A chunk whose tags field carries the capitalized tag Anxiety. -/
def anxChunk : Chunk := ⟨7, "B", "C", some "Anxiety", ""⟩

/-- A ready engine state whose manifest holds only anxChunk. -/
def anxState : EngineState := ⟨some ⟨[anxChunk], 1⟩, true, false, true⟩

/-- Characterization of a successful search call: the engine was ready with
a loaded manifest, the state is returned unchanged, and the results are the
limited scored results over the manifest chunks. -/
lemma search_ok_spec {fuse : String → List Chunk → List (Chunk × ℚ)}
    {s : EngineState} {q : String} {T : List String} {limit : Option Nat}
    {r : List SearchResult} {s' : EngineState}
    (h : search fuse s q T limit = .ok (r, s')) :
    ∃ md, s.metadata = some md ∧ s' = s ∧
      r = applyLimit limit (scoredResults fuse q T md.chunks) := by
  unfold search at h
  split at h
  · exact absurd h (by simp)
  · cases hm : s.metadata with
    | none => rw [hm] at h; exact absurd h (by simp)
    | some md =>
      rw [hm] at h
      simp only [Except.ok.injEq, Prod.mk.injEq] at h
      exact ⟨md, rfl, h.2.symm, h.1.symm⟩

/-- Chunks surviving the tag filter come from the input list. -/
lemma mem_of_mem_tagFilterStep {T : List String} {chunks : List Chunk} {c : Chunk}
    (h : c ∈ tagFilterStep T chunks) : c ∈ chunks := by
  unfold tagFilterStep at h
  split at h
  · exact List.mem_of_mem_filter h
  · exact h

/-- Chunks surviving the tag filter carry every requested tag. -/
lemma tag_mem_of_mem_tagFilterStep {T : List String} {chunks : List Chunk}
    {c : Chunk} {t : String} (hc : c ∈ tagFilterStep T chunks) (ht : t ∈ T) :
    t ∈ chunkTags c := by
  unfold tagFilterStep at hc
  split at hc
  · have hm := List.of_mem_filter hc
    unfold tagMatches at hm
    rw [List.all_eq_true] at hm
    have h2 := hm t ht
    simpa using h2
  · next hT =>
    exact absurd (List.length_pos.mpr (List.ne_nil_of_mem ht)) hT

/-- The tag filter never lengthens the list. -/
lemma tagFilterStep_length_le (T : List String) (chunks : List Chunk) :
    (tagFilterStep T chunks).length ≤ chunks.length := by
  unfold tagFilterStep
  split
  · exact List.length_filter_le _ _
  · exact le_refl _

/-- Chunks of scored results come from the tag-filtered list, provided the
Fuse.js call returns items drawn from its input list. -/
lemma chunk_mem_of_mem_scoredResults
    {fuse : String → List Chunk → List (Chunk × ℚ)}
    (hf : ∀ q l, List.Subperm ((fuse q l).map Prod.fst) l)
    {q : String} {T : List String} {chunks : List Chunk} {res : SearchResult}
    (h : res ∈ scoredResults fuse q T chunks) :
    res.chunk ∈ tagFilterStep T chunks := by
  unfold scoredResults at h
  split at h
  · obtain ⟨p, hp, rfl⟩ := List.mem_map.mp h
    exact (hf _ _).subset (List.mem_map_of_mem Prod.fst hp)
  · obtain ⟨c, hc, rfl⟩ := List.mem_map.mp h
    exact hc

/-- Scored results are no more numerous than the manifest chunks, provided
the Fuse.js call returns a permuted sublist of its input. -/
lemma scoredResults_length_le
    {fuse : String → List Chunk → List (Chunk × ℚ)}
    (hf : ∀ q l, List.Subperm ((fuse q l).map Prod.fst) l)
    (q : String) (T : List String) (chunks : List Chunk) :
    (scoredResults fuse q T chunks).length ≤ chunks.length := by
  unfold scoredResults
  split
  · calc ((fuse (jsTrim q) (tagFilterStep T chunks)).map
        (fun r => (⟨r.1, 1 - r.2⟩ : SearchResult))).length
        = ((fuse (jsTrim q) (tagFilterStep T chunks)).map Prod.fst).length := by
          simp
      _ ≤ (tagFilterStep T chunks).length := (hf _ _).length_le
      _ ≤ chunks.length := tagFilterStep_length_le T chunks
  · simpa using tagFilterStep_length_le T chunks

/-- The limit slice keeps only elements of the unlimited list. -/
lemma mem_of_mem_applyLimit {limit : Option Nat} {rs : List SearchResult}
    {res : SearchResult} (h : res ∈ applyLimit limit rs) : res ∈ rs := by
  cases limit with
  | none => exact h
  | some n =>
    by_cases hn : n = 0
    · simpa [applyLimit, hn] using h
    · have h2 : res ∈ rs.take n := by simpa [applyLimit, hn] using h
      exact List.take_subset _ _ h2

/-- The limit slice never lengthens the list. -/
lemma applyLimit_length_le (limit : Option Nat) (rs : List SearchResult) :
    (applyLimit limit rs).length ≤ rs.length := by
  cases limit with
  | none => exact le_refl _
  | some n =>
    by_cases hn : n = 0
    · simp [applyLimit, hn]
    · rw [show applyLimit (some n) rs = rs.take n from by simp [applyLimit, hn]]
      rw [List.length_take]
      exact min_le_right _ _

/-- C1: for every manifest and every tag filter list T, every chunk
returned by search carries all tags in T: the chunk tag set, obtained by
splitting the record tags string on commas and trimming, is a superset of T
(AND semantics). The Fuse.js call is any function returning items drawn
from its input list. -/
theorem search_tag_filter_superset
    (fuse : String → List Chunk → List (Chunk × ℚ))
    (hf : ∀ q l, List.Subperm ((fuse q l).map Prod.fst) l)
    (s : EngineState) (q : String) (T : List String) (limit : Option Nat)
    (r : List SearchResult) (s' : EngineState)
    (h : search fuse s q T limit = .ok (r, s'))
    (res : SearchResult) (hres : res ∈ r) :
    ∀ t ∈ T, t ∈ chunkTags res.chunk := by
  obtain ⟨md, hm, hs, hr⟩ := search_ok_spec h
  subst hr
  intro t ht
  exact tag_mem_of_mem_tagFilterStep
    (chunk_mem_of_mem_scoredResults hf (mem_of_mem_applyLimit hres)) ht

/-- Witness for C1 at the concrete three-chunk manifest. -/
theorem search_tag_filter_superset_witness :
    "anxiety" ∈ chunkTags (SearchResult.mk exC1 1).chunk :=
  search_tag_filter_superset trivFuse
    (fun q l => by simp [trivFuse])
    exState "" ["anxiety"] none [⟨exC1, 1⟩, ⟨exC2, 1⟩] exState rfl
    ⟨exC1, 1⟩ (List.mem_cons_self _ _) "anxiety" (List.mem_cons_self _ _)

/-- C2: for every loaded manifest with N chunks, every result returned by
search has its chunk drawn from the manifest, and the number of returned
results never exceeds N. -/
theorem search_results_wellformed
    (fuse : String → List Chunk → List (Chunk × ℚ))
    (hf : ∀ q l, List.Subperm ((fuse q l).map Prod.fst) l)
    (s : EngineState) (q : String) (T : List String) (limit : Option Nat)
    (r : List SearchResult) (s' : EngineState) (md : Metadata)
    (hm : s.metadata = some md)
    (h : search fuse s q T limit = .ok (r, s')) :
    r.length ≤ md.chunks.length ∧ ∀ res ∈ r, res.chunk ∈ md.chunks := by
  obtain ⟨md', hm', hs, hr⟩ := search_ok_spec h
  rw [hm] at hm'
  injection hm' with e
  subst e
  subst hr
  refine ⟨le_trans (applyLimit_length_le _ _) (scoredResults_length_le hf _ _ _), ?_⟩
  intro res hres
  exact mem_of_mem_tagFilterStep
    (chunk_mem_of_mem_scoredResults hf (mem_of_mem_applyLimit hres))

/-- Witness for C2 at the concrete three-chunk manifest. -/
theorem search_results_wellformed_witness :
    ([⟨exC0, 1⟩, ⟨exC1, 1⟩, ⟨exC2, 1⟩] : List SearchResult).length
        ≤ exMetadata.chunks.length ∧
    (SearchResult.mk exC0 1).chunk ∈ exMetadata.chunks :=
  ⟨(search_results_wellformed trivFuse
      (fun q l => by simp [trivFuse])
      exState "" [] none [⟨exC0, 1⟩, ⟨exC1, 1⟩, ⟨exC2, 1⟩] exState exMetadata
      rfl rfl).1,
   (search_results_wellformed trivFuse
      (fun q l => by simp [trivFuse])
      exState "" [] none [⟨exC0, 1⟩, ⟨exC1, 1⟩, ⟨exC2, 1⟩] exState exMetadata
      rfl rfl).2 ⟨exC0, 1⟩ (List.mem_cons_self _ _)⟩

/-- C7: search invoked on a not-ready engine fails immediately with the
not-ready error; on a ready engine that error branch is unreachable. -/
theorem search_not_ready_guard
    (fuse : String → List Chunk → List (Chunk × ℚ))
    (s : EngineState) (q : String) (T : List String) (limit : Option Nat) :
    (s.isReady = false → search fuse s q T limit = .error notReadyMsg) ∧
    (s.isReady = true → search fuse s q T limit ≠ .error notReadyMsg) := by
  constructor
  · intro hr
    unfold search
    simp [hr]
  · intro hr
    unfold search
    simp only [hr]
    cases s.metadata with
    | none => simp [notReadyMsg]
    | some md => simp

/-- Witness for C7: a freshly constructed engine rejects search, and the
concrete ready engine does not raise the not-ready error. -/
theorem search_not_ready_guard_witness :
    search trivFuse ⟨none, false, false, false⟩ "calm" [] none
        = .error notReadyMsg ∧
    search trivFuse exState "calm" [] none ≠ .error notReadyMsg :=
  ⟨(search_not_ready_guard trivFuse ⟨none, false, false, false⟩ "calm" [] none).1 rfl,
   (search_not_ready_guard trivFuse exState "calm" [] none).2 rfl⟩

/-- C8: search is deterministic. A successful call returns the engine
state unchanged, so re-running the same call against that state yields the
identical ordered result list. -/
theorem search_deterministic
    (fuse : String → List Chunk → List (Chunk × ℚ))
    (s : EngineState) (q : String) (T : List String) (limit : Option Nat)
    (r : List SearchResult) (s' : EngineState)
    (h : search fuse s q T limit = .ok (r, s')) :
    search fuse s' q T limit = .ok (r, s') := by
  obtain ⟨md, hm, hs, hr⟩ := search_ok_spec h
  subst hs
  exact h

/-- Witness for C8 at a concrete query. -/
theorem search_deterministic_witness :
    search trivFuse exState "calm breathing" [] none = .ok ([], exState) :=
  search_deterministic trivFuse exState "calm breathing" [] none [] exState rfl

/-- C10: initialize returns at once, fetching nothing and changing no
state, when the engine is ready; and throws Already initializing, leaving
the state of the in-flight load untouched, when a load is in flight. -/
theorem initialize_reentry_guard (s : EngineState) :
    (s.isReady = true →
      ∀ f, initializeEngine f s = (s, .ok ())) ∧
    (s.isReady = false → s.isLoading = true →
      ∀ f, initializeEngine f s = (s, .error "Already initializing")) := by
  constructor
  · intro hr f
    unfold initializeEngine
    simp [hr]
  · intro hr hl f
    unfold initializeEngine
    simp [hr, hl]

/-- Witness for C10: a ready engine and a loading engine, each probed with
both possible fetch outcomes. -/
theorem initialize_reentry_guard_witness :
    initializeEngine (.error "network down") exState = (exState, .ok ()) ∧
    initializeEngine (.ok exMetadata) ⟨none, false, true, false⟩
      = (⟨none, false, true, false⟩, .error "Already initializing") :=
  ⟨(initialize_reentry_guard exState).1 rfl (.error "network down"),
   (initialize_reentry_guard ⟨none, false, true, false⟩).2 rfl rfl (.ok exMetadata)⟩

/-- Behaviour of the inner download branch: a failed or non-ok embeddings
fetch, or a failed embeddings store, leaves the cache untouched; and the
version descriptor moves only when the fetched body has been stored. -/
lemma downloadNewEmbeddings_spec (nv : VersionJson) (ef : FetchOutcome String)
    (pe pv : Bool) (c : SWCache) :
    ((∀ b, ef ≠ .response true b) ∨ pe = false →
      (downloadNewEmbeddings nv ef pe pv c).1 = c) ∧
    ((downloadNewEmbeddings nv ef pe pv c).1.version ≠ c.version →
      pe = true ∧ ∃ b, ef = .response true b ∧
        (downloadNewEmbeddings nv ef pe pv c).1.embeddings = some b) := by
  cases ef with
  | thrown m =>
    exact ⟨fun _ => rfl, fun hv => absurd rfl hv⟩
  | response ok b =>
    cases ok with
    | false =>
      exact ⟨fun _ => rfl, fun hv => absurd rfl hv⟩
    | true =>
      cases pe with
      | false =>
        exact ⟨fun _ => rfl, fun hv => absurd rfl hv⟩
      | true =>
        cases pv with
        | false =>
          refine ⟨fun h => ?_, fun hv => absurd rfl hv⟩
          rcases h with h | h
          · exact absurd rfl (h b)
          · cases h
        | true =>
          refine ⟨fun h => ?_, fun _ => ⟨rfl, b, rfl, rfl⟩⟩
          rcases h with h | h
          · exact absurd rfl (h b)
          · cases h

/-- C3: the update check writes the stored version descriptor only after
the embeddings asset has been completely fetched and stored; whenever the
asset fetch fails, returns a non-ok response, or the asset store fails, the
cache is left holding the old descriptor and the old asset unchanged. -/
theorem checkForUpdates_atomic_swap (vf : FetchOutcome VersionJson)
    (ef : FetchOutcome String) (pe pv : Bool) (c : SWCache) :
    ((∀ b, ef ≠ .response true b) ∨ pe = false →
      (checkForUpdates vf ef pe pv c).1 = c) ∧
    ((checkForUpdates vf ef pe pv c).1.version ≠ c.version →
      pe = true ∧ ∃ b, ef = .response true b ∧
        (checkForUpdates vf ef pe pv c).1.embeddings = some b) := by
  cases vf with
  | thrown m =>
    exact ⟨fun _ => rfl, fun hv => absurd rfl hv⟩
  | response ok nv =>
    cases ok with
    | false =>
      exact ⟨fun _ => rfl, fun hv => absurd rfl hv⟩
    | true =>
      have hd := downloadNewEmbeddings_spec nv ef pe pv c
      cases hcv : c.version with
      | none =>
        rw [hcv] at hd
        constructor
        · intro h
          have := hd.1 h
          simpa [checkForUpdates, hcv] using this
        · intro hv
          rw [show checkForUpdates (.response true nv) ef pe pv c
              = downloadNewEmbeddings nv ef pe pv c from by
                simp [checkForUpdates, hcv]] at hv ⊢
          exact hd.2 hv
      | some cached =>
        rw [hcv] at hd
        by_cases he : nv.checksum = cached.checksum
        · constructor
          · intro _
            simp [checkForUpdates, hcv, he]
          · intro hv
            exact absurd (by simp [checkForUpdates, hcv, he]) hv
        · constructor
          · intro h
            have := hd.1 h
            simpa [checkForUpdates, hcv, he] using this
          · intro hv
            rw [show checkForUpdates (.response true nv) ef pe pv c
                = downloadNewEmbeddings nv ef pe pv c from by
                  simp [checkForUpdates, hcv, he]] at hv ⊢
            exact hd.2 hv

/-- Witness for C3: a new version is detected but the embeddings fetch
throws, and the cache keeps the old asset and old descriptor. -/
theorem checkForUpdates_atomic_swap_witness :
    (checkForUpdates (.response true ⟨5, "new"⟩) (.thrown "network down")
      true true ⟨some "old asset", some ⟨1, "old"⟩⟩).1
      = ⟨some "old asset", some ⟨1, "old"⟩⟩ :=
  (checkForUpdates_atomic_swap (.response true ⟨5, "new"⟩)
    (.thrown "network down") true true ⟨some "old asset", some ⟨1, "old"⟩⟩).1
    (Or.inl (fun b h => nomatch h))

/-- C4 counterexample: the chunk tagged with capitalized Anxiety does not
pass the filter for lowercase anxiety: the membership test fails and the
search returns no results, against the claim that case-normalized
comparison lets it pass. -/
theorem tag_case_counterexample :
    tagMatches ["anxiety"] anxChunk = false ∧
    search trivFuse anxState "" ["anxiety"] none = .ok ([], anxState) :=
  ⟨rfl, rfl⟩

/-- C4 amended: the membership test used by search compares requested tags
to the chunk tags by case-sensitive exact string comparison after splitting
the record tags field on commas and trimming; hence a chunk tagged Anxiety
passes the filter for Anxiety but not the filter for anxiety. -/
theorem tag_membership_exact_amended :
    (∀ T c, tagMatches T c = true ↔ ∀ t ∈ T, t ∈ chunkTags c) ∧
    tagMatches ["Anxiety"] anxChunk = true ∧
    tagMatches ["anxiety"] anxChunk = false := by
  refine ⟨?_, rfl, rfl⟩
  intro T c
  simp [tagMatches, List.all_eq_true]

/-- Witness for C4 amended at the concrete capitalized chunk. -/
theorem tag_membership_exact_amended_witness :
    "Anxiety" ∈ chunkTags anxChunk :=
  (tag_membership_exact_amended.1 ["Anxiety"] anxChunk).mp rfl
    "Anxiety" (List.mem_cons_self _ _)

/-- C5 counterexample: on the three-chunk manifest the call with third
argument 1 returns a single result, because that argument is a result
limit, not a page number; the claim expects both anxiety chunks. -/
theorem empty_query_limit_counterexample :
    search trivFuse exState "" ["anxiety"] (some 1) = .ok ([⟨exC1, 1⟩], exState) ∧
    ([⟨exC1, 1⟩] : List SearchResult).length ≠ 2 :=
  ⟨rfl, by decide⟩

/-- C5 amended: with an empty or whitespace-only query and no limit,
search returns exactly the tag-filtered chunks, each with score 1.0, in
original manifest order; on the concrete manifest the anxiety filter
returns the chunks with id 1 and id 2 in that order, while passing 1 as
the third argument limits the result list to the chunk with id 1. The
search method returns a bare list and no page count. -/
theorem empty_query_amended :
    (∀ fuse s md q T, s.metadata = some md → s.isReady = true →
      ¬(q ≠ "" ∧ 0 < (jsTrim q).length) →
      search fuse s q T none =
        .ok ((tagFilterStep T md.chunks).map (fun c => ⟨c, 1⟩), s)) ∧
    search trivFuse exState "" ["anxiety"] none
      = .ok ([⟨exC1, 1⟩, ⟨exC2, 1⟩], exState) ∧
    search trivFuse exState "" ["anxiety"] (some 1)
      = .ok ([⟨exC1, 1⟩], exState) := by
  refine ⟨?_, rfl, rfl⟩
  intro fuse s md q T hm hr hq
  unfold search
  simp [hr, hm, scoredResults, applyLimit, hq]

/-- Witness for C5 amended at a whitespace-only query. -/
theorem empty_query_amended_witness :
    search trivFuse exState "   " ["travel"] none
      = .ok ((tagFilterStep ["travel"] exMetadata.chunks).map (fun c => ⟨c, 1⟩),
        exState) :=
  empty_query_amended.1 trivFuse exState exMetadata "   " ["travel"] rfl rfl
    (by decide)

/-- Chunk with an exact title match for the dense-variant counterexample:
its title is How to Travel and it carries no tags. -/
def titleChunk : Chunk := ⟨10, "How to Travel", "", none, ""⟩

/-- C6 counterexample: the dense-variant pipeline has no title tier. A
chunk whose lowercased title equals the query, at base similarity 0.20, is
dropped by the single 0.3 cutoff, against the claim that a title-level
match is retained below the tag-only and no-signal floors. -/
theorem tiered_threshold_counterexample :
    jsToLower titleChunk.book_title = "how to travel" ∧
    denseAccept (fun _ _ => false) "how to travel" titleChunk (20/100) = false := by
  refine ⟨rfl, ?_⟩
  have h : denseTags titleChunk = [] := rfl
  simp [denseAccept, tagBoost, scoreThreshold, h]
  norm_num

/-- C6 amended: acceptance applies the single cutoff 0.3 to the
tag-boosted score. This yields effective base-similarity floors of 0.30
for chunks with no tag signal and 0.10 for chunks with an exact tag match;
title matches confer no boost, so a chunk with an exact title match and no
tags is subject to the 0.30 floor, and a chunk with no metadata signal at
base similarity 0.50 is kept. -/
theorem dense_threshold_amended :
    (∀ pm q c b, denseTags c = [] →
      (denseAccept pm q c b = true ↔ scoreThreshold ≤ b)) ∧
    (∀ pm q c b, (denseTags c).contains q = true →
      (denseAccept pm q c b = true ↔ (10 : ℚ)/100 ≤ b)) ∧
    denseAccept (fun _ _ => false) "anything" titleChunk (50/100) = true ∧
    denseAccept (fun _ _ => true) "anxiety" exC1 (10/100) = true := by
  refine ⟨?_, ?_, ?_, ?_⟩
  · intro pm q c b h
    simp [denseAccept, tagBoost, h]
  · intro pm q c b h
    have hm : q ∈ denseTags c := by simpa using h
    simp [denseAccept, tagBoost, hm, scoreThreshold]
    constructor <;> intro h2 <;> linarith
  · have h : denseTags titleChunk = [] := rfl
    simp [denseAccept, tagBoost, scoreThreshold, h]
    norm_num
  · have h : denseTags exC1 = ["anxiety"] := rfl
    simp [denseAccept, tagBoost, scoreThreshold, h]
    norm_num

/-- Witness for C6 amended: an exact tag match holds a chunk exactly at
the lowered 0.10 base-similarity floor. -/
theorem dense_threshold_amended_witness :
    denseAccept (fun _ _ => true) "calm" exC2 ((10 : ℚ)/100) = true :=
  (dense_threshold_amended.2.1 (fun _ _ => true) "calm" exC2 ((10 : ℚ)/100)
    rfl).mpr (le_refl _)

/-- C9 counterexample: with one result, page 2 exceeds totalPages = 1 yet
renders the empty slice instead of clamping to the last page, against the
claim that out-of-range pages clamp when totalResults is positive. -/
theorem pagination_clamp_counterexample :
    0 < ([⟨exC1, 1⟩] : List SearchResult).length ∧
    totalPages ([⟨exC1, 1⟩] : List SearchResult).length = 1 ∧
    pageSlice [⟨exC1, 1⟩] 2 = [] :=
  ⟨by decide, rfl, rfl⟩

/-- C9 amended: pagination uses the fixed page size 25 and computes
totalPages as the ceiling of totalResults over 25; pages within range
render a nonempty slice, but a page beyond totalPages renders an empty
slice rather than clamping, and out-of-range pages are prevented by the
navigation handlers, whose next-page step never passes totalPages. -/
theorem pagination_amended :
    resultsPerPage = 25 ∧
    (∀ n : Nat, totalPages n = ⌈(n : ℚ) / 25⌉₊) ∧
    (∀ (rs : List SearchResult) (p : Nat), 1 ≤ p → p ≤ totalPages rs.length →
      pageSlice rs p ≠ []) ∧
    (∀ (rs : List SearchResult) (p : Nat), totalPages rs.length < p →
      pageSlice rs p = []) ∧
    (∀ cur total : Nat, cur ≤ total → nextPageClick cur total ≤ total) := by
  refine ⟨rfl, ?_, ?_, ?_, ?_⟩
  · intro n
    rcases Nat.eq_zero_or_pos n with hn | hn
    · subst hn
      simp [totalPages, resultsPerPage]
    · have h1 : 1 ≤ totalPages n := by
        unfold totalPages resultsPerPage
        omega
      have h2 : totalPages n * 25 < n + 25 := by
        unfold totalPages resultsPerPage
        omega
      have h3 : n ≤ totalPages n * 25 := by
        unfold totalPages resultsPerPage
        omega
      rw [eq_comm, Nat.ceil_eq_iff (by omega)]
      constructor
      · rw [Nat.cast_sub h1]
        push_cast
        rw [lt_div_iff₀ (by norm_num : (0 : ℚ) < 25)]
        have h2q : (totalPages n : ℚ) * 25 < n + 25 := by exact_mod_cast h2
        linarith
      · rw [div_le_iff₀ (by norm_num : (0 : ℚ) < 25)]
        exact_mod_cast h3
  · intro rs p h1 hp
    have hpos : 0 < (pageSlice rs p).length := by
      unfold pageSlice
      rw [List.length_drop, List.length_take]
      unfold totalPages resultsPerPage at hp
      unfold endIdx startIdx resultsPerPage
      omega
    exact List.length_pos.mp hpos
  · intro rs p hp
    unfold pageSlice
    apply List.drop_eq_nil_of_le
    rw [List.length_take]
    unfold totalPages resultsPerPage at hp
    unfold endIdx startIdx resultsPerPage
    omega
  · intro cur total h
    unfold nextPageClick
    split <;> omega

/-- Witness for C9 amended: page 1 of a single result renders nonempty. -/
theorem pagination_amended_witness :
    pageSlice [⟨exC2, 1⟩] 1 ≠ [] :=
  pagination_amended.2.2.1 [⟨exC2, 1⟩] 1 (le_refl 1) (by decide)

end Essay
